import Mathlib

/-!
Verification of the PAIlib coordinate/frame/routing core.

Shallow embedding of `paicorelib`: coordinates with carry arithmetic
(`coordinate.py`), routing cost and multicast expansion (`routing_defs.py`),
and the 64-bit frame codec (`framelib/`).  Machine integers are modelled as
`Nat`/`Int`; operations that raise in Python return `Option`.
-/

namespace PAIlib

/-! ### Hardware parameters (`hw_defs.py`) -/

def COORD_Y_PRIORITY : Bool := true

def N_BIT_COORD_ADDR : ℕ := 5

def CORE_X_MIN : ℕ := 0

def CORE_X_MAX : ℕ := (1 <<< N_BIT_COORD_ADDR) - 1

def CORE_Y_MIN : ℕ := 0

def CORE_Y_MAX : ℕ := (1 <<< N_BIT_COORD_ADDR) - 1

/-- Modelled from the spec: `HwParams.N_BIT_CORE_X` is referenced by
`coordinate.py` but missing from the `hw_defs.py` under `src/`; the spec fixes
the per-axis bit-width at `W = 5` (10-bit combined address). -/
def N_BIT_CORE_X : ℕ := 5

/-- Modelled from the spec: `HwParams.N_BIT_CORE_Y` is referenced by
`coordinate.py` but missing from the `hw_defs.py` under `src/`; the spec fixes
the per-axis bit-width at `W = 5` (10-bit combined address). -/
def N_BIT_CORE_Y : ℕ := 5

def N_SUB_ROUTING_NODE : ℕ := 4

/-- `_cx_range = _cx_max - _cx_min + 1` in `coordinate.py`. -/
def cxRange : ℕ := CORE_X_MAX - CORE_X_MIN + 1

/-- `_cy_range = _cy_max - _cy_min + 1` in `coordinate.py`. -/
def cyRange : ℕ := CORE_Y_MAX - CORE_Y_MIN + 1

/-! ### Coordinates (`coordinate.py`) -/

/-- `Coord`: coordinate of a core.  The pydantic model constrains both fields
to `[CORE_X_MIN, CORE_X_MAX]` resp. `[CORE_Y_MIN, CORE_Y_MAX]`; fields are
kept as `ℕ` and the range constraint is the `valid` predicate below. -/
structure Coord where
  x : ℕ
  y : ℕ
deriving DecidableEq, Repr

/-- The pydantic field constraints on `Coord` (`ge=_cx_min, le=_cx_max`, …). -/
def Coord.valid (c : Coord) : Prop :=
  CORE_X_MIN ≤ c.x ∧ c.x ≤ CORE_X_MAX ∧ CORE_Y_MIN ≤ c.y ∧ c.y ≤ CORE_Y_MAX

instance (c : Coord) : Decidable c.valid := by
  unfold Coord.valid; infer_instance

/-- `ReplicationId` subclasses `Coord` (same two 5-bit axes, used as a mask). -/
abbrev ReplicationId := Coord

/-- `CoordOffset`: signed displacement, pydantic-constrained to
`[-_cx_max, _cx_max]` × `[-_cy_max, _cy_max]`. -/
structure CoordOffset where
  delta_x : ℤ
  delta_y : ℤ
deriving DecidableEq, Repr

def CoordOffset.valid (o : CoordOffset) : Prop :=
  -(CORE_X_MAX : ℤ) ≤ o.delta_x ∧ o.delta_x ≤ (CORE_X_MAX : ℤ) ∧
    -(CORE_Y_MAX : ℤ) ≤ o.delta_y ∧ o.delta_y ≤ (CORE_Y_MAX : ℤ)

instance (o : CoordOffset) : Decidable o.valid := by
  unfold CoordOffset.valid; infer_instance

/-- Pydantic validation performed by the `Coord(...)` constructor: fails
(raises) when either axis is out of range. -/
def Coord.make (x y : ℤ) : Option Coord :=
  if (CORE_X_MIN : ℤ) ≤ x ∧ x ≤ (CORE_X_MAX : ℤ) ∧
      (CORE_Y_MIN : ℤ) ≤ y ∧ y ≤ (CORE_Y_MAX : ℤ) then
    some ⟨x.toNat, y.toNat⟩
  else
    none

/-- The `HwParams.COORD_Y_PRIORITY` branch of `_sum_carry` (`coordinate.py`):
Y is the non-priority axis that wraps, X absorbs the carry/borrow. -/
def sumCarryY (cx cy : ℤ) : Option (ℤ × ℤ) :=
  if cy > (CORE_Y_MAX : ℤ) then
    if cx + 1 > (CORE_X_MAX : ℤ) then none
    else if cx + 1 < (CORE_X_MIN : ℤ) then none
    else some (cx + 1, cy - (cyRange : ℤ))
  else if (CORE_Y_MIN : ℤ) ≤ cy ∧ cy ≤ (CORE_Y_MAX : ℤ) then
    if cx > (CORE_X_MAX : ℤ) then none
    else if cx < (CORE_X_MIN : ℤ) then none
    else some (cx, cy)
  else  -- cy < _cy_min
    if cx - 1 > (CORE_X_MAX : ℤ) then none
    else if cx - 1 < (CORE_X_MIN : ℤ) then none
    else some (cx - 1, cy + (cyRange : ℤ))

/-- The `else` (X-priority) branch of `_sum_carry`, kept for fidelity although
`COORD_Y_PRIORITY = true` makes it dead code.  Note the source subtracts
`_cy_range` (not `_cx_range`) in the carry case. -/
def sumCarryX (cx cy : ℤ) : Option (ℤ × ℤ) :=
  if cx > (CORE_X_MAX : ℤ) then
    if cy + 1 > (CORE_Y_MAX : ℤ) then none
    else if cy + 1 < (CORE_Y_MIN : ℤ) then none
    else some (cx - (cyRange : ℤ), cy + 1)
  else if (CORE_X_MIN : ℤ) ≤ cx ∧ cx ≤ (CORE_X_MAX : ℤ) then
    if cy > (CORE_Y_MAX : ℤ) then none
    else if cy < (CORE_Y_MIN : ℤ) then none
    else some (cx, cy)
  else  -- cx < _cx_min
    if cy - 1 > (CORE_Y_MAX : ℤ) then none
    else if cy - 1 < (CORE_Y_MIN : ℤ) then none
    else some (cx + (cxRange : ℤ), cy - 1)

/-- `_sum_carry(cx, cy)` of `coordinate.py`; `none` models the raised
`ValueError`. -/
def sumCarry (cx cy : ℤ) : Option (ℤ × ℤ) :=
  if COORD_Y_PRIORITY then sumCarryY cx cy else sumCarryX cx cy

/-- `Coord.__add__`: raw axis-wise sums fed through `_sum_carry`, result
re-validated by the `Coord` constructor. -/
def Coord.add (c : Coord) (o : CoordOffset) : Option Coord :=
  (sumCarry ((c.x : ℤ) + o.delta_x) ((c.y : ℤ) + o.delta_y)).bind fun p =>
    Coord.make p.1 p.2

/-- `Coord.__sub__` with a `CoordOffset` argument: axis-wise differences fed
through `_sum_carry`. -/
def Coord.sub (c : Coord) (o : CoordOffset) : Option Coord :=
  (sumCarry ((c.x : ℤ) - o.delta_x) ((c.y : ℤ) - o.delta_y)).bind fun p =>
    Coord.make p.1 p.2

/-! ### C1: carry-propagating addition -/

theorem CORE_X_MIN_eq : CORE_X_MIN = 0 := rfl

theorem CORE_X_MAX_eq : CORE_X_MAX = 31 := rfl

theorem CORE_Y_MIN_eq : CORE_Y_MIN = 0 := rfl

theorem CORE_Y_MAX_eq : CORE_Y_MAX = 31 := rfl

theorem cyRange_eq : cyRange = 32 := rfl

theorem sumCarryY_unfold (cx cy : ℤ) :
    sumCarry cx cy =
      (if cy > 31 then
        if cx + 1 > 31 then none
        else if cx + 1 < 0 then none
        else some (cx + 1, cy - 32)
      else if 0 ≤ cy ∧ cy ≤ 31 then
        if cx > 31 then none
        else if cx < 0 then none
        else some (cx, cy)
      else
        if cx - 1 > 31 then none
        else if cx - 1 < 0 then none
        else some (cx - 1, cy + 32)) := by
  simp only [sumCarry, COORD_Y_PRIORITY, if_true, sumCarryY, CORE_X_MIN_eq,
    CORE_X_MAX_eq, CORE_Y_MIN_eq, CORE_Y_MAX_eq, cyRange_eq]
  norm_num

/-- `Coord.make` with the pydantic conjunction split into nested tests. -/
theorem Coord.make_eq (a b : ℤ) :
    Coord.make a b =
      if 0 ≤ a then if a ≤ 31 then if 0 ≤ b then if b ≤ 31 then
        some ⟨a.toNat, b.toNat⟩ else none else none else none else none := by
  by_cases h1 : 0 ≤ a <;> by_cases h2 : a ≤ 31 <;>
    by_cases h3 : 0 ≤ b <;> by_cases h4 : b ≤ 31 <;>
    simp [Coord.make, CORE_X_MIN_eq, CORE_X_MAX_eq, CORE_Y_MIN_eq,
      CORE_Y_MAX_eq, h1, h2, h3, h4]

/-- Closed form of `Coord.__add__` on valid inputs: wrap the y sum into
`[0,31]`, propagate the `±1` adjustment into x, fail iff the adjusted x is out
of `[0,31]`. -/
theorem coord_add_eq (c : Coord) (o : CoordOffset)
    (hc : c.valid) (ho : o.valid) :
    (Coord.add c o =
      (if 31 < (c.y : ℤ) + o.delta_y then
        (if 0 ≤ (c.x : ℤ) + o.delta_x + 1 ∧ (c.x : ℤ) + o.delta_x + 1 ≤ 31 then
          some ⟨((c.x : ℤ) + o.delta_x + 1).toNat, ((c.y : ℤ) + o.delta_y - 32).toNat⟩
        else none)
      else if (c.y : ℤ) + o.delta_y < 0 then
        (if 0 ≤ (c.x : ℤ) + o.delta_x - 1 ∧ (c.x : ℤ) + o.delta_x - 1 ≤ 31 then
          some ⟨((c.x : ℤ) + o.delta_x - 1).toNat, ((c.y : ℤ) + o.delta_y + 32).toNat⟩
        else none)
      else
        (if 0 ≤ (c.x : ℤ) + o.delta_x ∧ (c.x : ℤ) + o.delta_x ≤ 31 then
          some ⟨((c.x : ℤ) + o.delta_x).toNat, ((c.y : ℤ) + o.delta_y).toNat⟩
        else none))) := by
  obtain ⟨hx0, hx1, hy0, hy1⟩ := hc
  obtain ⟨hdx0, hdx1, hdy0, hdy1⟩ := ho
  rw [CORE_X_MAX_eq] at hx1 hdx0 hdx1
  rw [CORE_Y_MAX_eq] at hy1 hdy0 hdy1
  rw [Coord.add, sumCarryY_unfold]
  split_ifs <;>
    simp only [Option.none_bind', Option.some_bind', Coord.make_eq] <;>
    (try split_ifs) <;>
    first | rfl | (exfalso; omega)

/-- C1: under the default Y-priority configuration, `c + o` first computes the
raw sums `x+dx` and `y+dy`; if the y sum leaves `[0,31]` it is wrapped by
`-32` (overflow) or `+32` (underflow) and an adjustment of `+1`/`-1` is
propagated into the x sum; the operation returns the adjusted coordinate when
the adjusted x lies in `[0,31]` and fails otherwise.  In particular
`Coord(12,13) + CoordOffset(-2,20) = Coord(11,1)`. -/
theorem coord_add_carry_spec (c : Coord) (o : CoordOffset)
    (hc : c.valid) (ho : o.valid) :
    (Coord.add c o =
      (if 31 < (c.y : ℤ) + o.delta_y then
        (if 0 ≤ (c.x : ℤ) + o.delta_x + 1 ∧ (c.x : ℤ) + o.delta_x + 1 ≤ 31 then
          some ⟨((c.x : ℤ) + o.delta_x + 1).toNat, ((c.y : ℤ) + o.delta_y - 32).toNat⟩
        else none)
      else if (c.y : ℤ) + o.delta_y < 0 then
        (if 0 ≤ (c.x : ℤ) + o.delta_x - 1 ∧ (c.x : ℤ) + o.delta_x - 1 ≤ 31 then
          some ⟨((c.x : ℤ) + o.delta_x - 1).toNat, ((c.y : ℤ) + o.delta_y + 32).toNat⟩
        else none)
      else
        (if 0 ≤ (c.x : ℤ) + o.delta_x ∧ (c.x : ℤ) + o.delta_x ≤ 31 then
          some ⟨((c.x : ℤ) + o.delta_x).toNat, ((c.y : ℤ) + o.delta_y).toNat⟩
        else none))) ∧
    Coord.add ⟨12, 13⟩ ⟨-2, 20⟩ = some ⟨11, 1⟩ :=
  ⟨coord_add_eq c o hc ho, by decide⟩

/-- Witness for C1 at `Coord(12,13) + CoordOffset(-2,20)`. -/
theorem coord_add_carry_spec_witness :
    Coord.valid ⟨12, 13⟩ ∧ CoordOffset.valid ⟨-2, 20⟩ ∧
      Coord.add ⟨12, 13⟩ ⟨-2, 20⟩ = some ⟨11, 1⟩ :=
  ⟨by decide, by decide,
    (coord_add_carry_spec ⟨12, 13⟩ ⟨-2, 20⟩ (by decide) (by decide)).2⟩

/-! ### C5: carry symmetry -/

/-- C5: for every valid `c` and `o`, whenever `c + o` succeeds, the
subsequent subtraction `(c + o) - o` succeeds as well and returns `c`
(in particular `(c + o) - o = c` whenever both operations succeed). -/
theorem coord_add_sub_symm (c : Coord) (o : CoordOffset) (c' : Coord)
    (hc : c.valid) (ho : o.valid) (h : Coord.add c o = some c') :
    Coord.sub c' o = some c := by
  obtain ⟨cx, cy⟩ := c
  obtain ⟨dx, dy⟩ := o
  have hadd := coord_add_eq ⟨cx, cy⟩ ⟨dx, dy⟩ hc ho
  obtain ⟨hx0, hx1, hy0, hy1⟩ := hc
  obtain ⟨hdx0, hdx1, hdy0, hdy1⟩ := ho
  rw [CORE_X_MAX_eq] at hx1 hdx0 hdx1
  rw [CORE_Y_MAX_eq] at hy1 hdy0 hdy1
  rw [CORE_X_MIN_eq] at hx0
  rw [CORE_Y_MIN_eq] at hy0
  dsimp only at hadd hx0 hx1 hy0 hy1 hdx0 hdx1 hdy0 hdy1
  rw [hadd] at h
  split_ifs at h
  all_goals obtain rfl := Option.some.inj h
  all_goals rw [Coord.sub, sumCarryY_unfold]
  all_goals dsimp only
  all_goals
    split_ifs <;>
      (try simp only [Option.none_bind', Option.some_bind', Coord.make_eq]) <;>
      (try split_ifs) <;>
      first
        | rfl
        | (exfalso; omega)
        | (simp only [Option.some.injEq, Coord.mk.injEq]
           refine ⟨by omega, by omega⟩)

/-- Witness for C5: `(Coord(12,13) + CoordOffset(-2,20)) - CoordOffset(-2,20)`
returns `Coord(12,13)`. -/
theorem coord_add_sub_symm_witness :
    Coord.sub ⟨11, 1⟩ ⟨-2, 20⟩ = some ⟨12, 13⟩ :=
  coord_add_sub_symm ⟨12, 13⟩ ⟨-2, 20⟩ ⟨11, 1⟩ (by decide) (by decide) (by decide)

/-! ### C3: multicast expansion (`routing_defs.py`) -/

/-- One `lx` iteration of the per-axis loop in `get_multicast_cores`: when bit
`lx` of the replication-id axis is set, XOR it into every element of the
current axis set and union the result in. -/
def axisStep (r : ℕ) (s : Finset ℕ) (lx : ℕ) : Finset ℕ :=
  if (r >>> lx) &&& 1 = 1 then s ∪ s.image (fun x => x ^^^ (1 <<< lx)) else s

/-- The x-set (resp. y-set) built by `get_multicast_cores`, starting from the
base axis value and scanning bits `0..4` of the replication-id axis. -/
def axisSet (b r : ℕ) : Finset ℕ :=
  (List.range 5).foldl (axisStep r) {b}

/-- `get_multicast_cores(base_coord, rid)`: the Cartesian product of the two
axis sets, collected as coordinates. -/
def getMulticastCores (base : Coord) (rid : ReplicationId) : Finset Coord :=
  ((axisSet base.x rid.x) ×ˢ (axisSet base.y rid.y)).image fun p =>
    Coord.mk p.1 p.2

/-- Number of set bits among bits `0..4` (popcount of a 5-bit axis value). -/
def popcount5 (r : ℕ) : ℕ :=
  ((List.range 5).filter fun i => (r >>> i) &&& 1 = 1).length

/-- Cardinality of one axis set, checked over the whole 5-bit domain. -/
theorem axisSet_card : ∀ b < 32, ∀ r < 32,
    (axisSet b r).card = 2 ^ popcount5 r := by decide

/-- C3: for valid base and replication id, `get_multicast_cores` returns
exactly `2^(popcount(rid.x) + popcount(rid.y))` coordinates (the Cartesian
product of the two XOR-expanded axis sets); in particular
`get_multicast_cores(Coord(0,0), ReplicationId(1,2))` is exactly
`{(0,0),(1,0),(0,2),(1,2)}`. -/
theorem multicast_cores_card (base : Coord) (rid : ReplicationId)
    (hb : base.valid) (hr : rid.valid) :
    (getMulticastCores base rid).card =
      2 ^ (popcount5 rid.x + popcount5 rid.y) ∧
    getMulticastCores ⟨0, 0⟩ ⟨1, 2⟩ = {⟨0, 0⟩, ⟨1, 0⟩, ⟨0, 2⟩, ⟨1, 2⟩} := by
  refine ⟨?_, by decide⟩
  obtain ⟨hx0, hx1, hy0, hy1⟩ := hb
  obtain ⟨rx0, rx1, ry0, ry1⟩ := hr
  rw [CORE_X_MAX_eq] at hx1 rx1
  rw [CORE_Y_MAX_eq] at hy1 ry1
  have hinj : Function.Injective (fun p : ℕ × ℕ => Coord.mk p.1 p.2) := by
    intro p q hpq
    obtain ⟨a, b⟩ := p
    obtain ⟨a', b'⟩ := q
    simpa [Coord.mk.injEq, Prod.ext_iff] using hpq
  rw [getMulticastCores, Finset.card_image_of_injective _ hinj,
    Finset.card_product, axisSet_card base.x (by omega) rid.x (by omega),
    axisSet_card base.y (by omega) rid.y (by omega), pow_add]

/-- Witness for C3 at `base = (0,0)`, `rid = (1,2)`. -/
theorem multicast_cores_card_witness :
    (getMulticastCores ⟨0, 0⟩ ⟨1, 2⟩).card = 2 ^ (popcount5 1 + popcount5 2) :=
  (multicast_cores_card ⟨0, 0⟩ ⟨1, 2⟩ (by decide) (by decide)).1

/-! ### Routing cost (`routing_defs.py`) -/

/-- `RoutingCost` named tuple: per-level node counts `n_L0 .. n_L5`
(`n_L5` defaults to 1). -/
structure RoutingCost where
  n_L0 : ℕ
  n_L1 : ℕ
  n_L2 : ℕ
  n_L3 : ℕ
  n_L4 : ℕ
  n_L5 : ℕ := 1
deriving DecidableEq, Repr

/-- Tuple indexing `cost[i]` of the named tuple (indices above 5 do not occur;
`0` is a dummy). -/
def RoutingCost.nth (c : RoutingCost) : ℕ → ℕ
  | 0 => c.n_L0
  | 1 => c.n_L1
  | 2 => c.n_L2
  | 3 => c.n_L3
  | 4 => c.n_L4
  | 5 => c.n_L5
  | _ + 6 => 0

/-- `RoutingCost.get_routing_level`: raise (`none`) when `n_L5 > 1`, otherwise
scan `i = 5, 4, …, 0` and return `RoutingLevel(i+1)` for the first (deepest)
level holding more than one node, defaulting to `L1`.  The `i = 5` iteration
is kept although the guard makes it dead. -/
def RoutingCost.getRoutingLevel (c : RoutingCost) : Option ℕ :=
  if 1 < c.n_L5 then none
  else if 1 < c.n_L5 then some 6
  else if 1 < c.n_L4 then some 5
  else if 1 < c.n_L3 then some 4
  else if 1 < c.n_L2 then some 3
  else if 1 < c.n_L1 then some 2
  else if 1 < c.n_L0 then some 1
  else some 1

/-- Claim-side description of a routing level `k`: `n_Lk == 1` and every
level above `k` is also `1`. -/
def levelOk (c : RoutingCost) (k : ℕ) : Prop :=
  k ≤ 5 ∧ c.nth k = 1 ∧ ∀ j < 6, k < j → c.nth j = 1

instance (c : RoutingCost) (k : ℕ) : Decidable (levelOk c k) := by
  unfold levelOk; infer_instance

/-- Python's `int.bit_length()` on a natural number. -/
def bit_length (n : ℕ) : ℕ := Nat.size n

/-- Loop body of `get_routing_consumption`:
`n_Lx[i+1] = 1 if n_Lx[i] < n_sub_node else n_Lx[i] // n_sub_node`. -/
def routingStep (x : ℕ) : ℕ :=
  if x < N_SUB_ROUTING_NODE then 1 else x / N_SUB_ROUTING_NODE

/-- `get_routing_consumption(n_core)`: `n_L0 = 1 << (n_core - 1).bit_length()`
followed by five applications of the division-by-4 step. -/
def getRoutingConsumption (n_core : ℕ) : RoutingCost :=
  let n0 := 1 <<< bit_length (n_core - 1)
  let n1 := routingStep n0
  let n2 := routingStep n1
  let n3 := routingStep n2
  let n4 := routingStep n3
  let n5 := routingStep n4
  ⟨n0, n1, n2, n3, n4, n5⟩

theorem getRoutingConsumption_n_L0 (n : ℕ) :
    (getRoutingConsumption n).n_L0 = 2 ^ Nat.size (n - 1) := by
  simp [getRoutingConsumption, bit_length, Nat.one_shiftLeft]

theorem routingStep_mono {a b : ℕ} (h : a ≤ b) : routingStep a ≤ routingStep b := by
  unfold routingStep N_SUB_ROUTING_NODE
  split_ifs <;> omega

/-! ### C4: `get_routing_level` -/

/-- C4 counterexample: on the all-ones cost — exactly what
`get_routing_consumption(1)` produces — level `0` already satisfies
"`n_Lk == 1` and every level above `k` is also 1", yet `get_routing_level`
returns level `1`, not the smallest such `k = 0`. -/
theorem routing_level_counterexample :
    getRoutingConsumption 1 = ⟨1, 1, 1, 1, 1, 1⟩ ∧
    RoutingCost.getRoutingLevel ⟨1, 1, 1, 1, 1, 1⟩ = some 1 ∧
    levelOk ⟨1, 1, 1, 1, 1, 1⟩ 0 ∧ (0 : ℕ) < 1 := by
  refine ⟨?_, by decide, by decide, by decide⟩
  simp [getRoutingConsumption, bit_length, routingStep, N_SUB_ROUTING_NODE]

/-- C4 (amended): for every `RoutingCost` whose level counts are all at least
1, `get_routing_level` fails iff `n_L5 > 1`, and otherwise returns the
smallest level `k ≥ 1` (never `L0`) such that `n_Lk == 1` and every level
above `k` is also 1. -/
theorem routing_level_spec (c : RoutingCost) (hpos : ∀ j < 6, 1 ≤ c.nth j) :
    (1 < c.n_L5 → c.getRoutingLevel = none) ∧
    (c.n_L5 ≤ 1 →
      ∃ k, c.getRoutingLevel = some k ∧ 1 ≤ k ∧ levelOk c k ∧
        ∀ j, 1 ≤ j → j < k → ¬levelOk c j) := by
  have h0 := hpos 0 (by norm_num)
  have h1 := hpos 1 (by norm_num)
  have h2 := hpos 2 (by norm_num)
  have h3 := hpos 3 (by norm_num)
  have h4 := hpos 4 (by norm_num)
  have h5 := hpos 5 (by norm_num)
  simp only [RoutingCost.nth] at h0 h1 h2 h3 h4 h5
  constructor
  · intro hgt
    simp [RoutingCost.getRoutingLevel, hgt]
  intro hle
  have e5 : c.n_L5 = 1 := by omega
  rw [RoutingCost.getRoutingLevel]
  rw [if_neg (by omega), if_neg (by omega)]
  by_cases c4 : 1 < c.n_L4
  · rw [if_pos c4]
    refine ⟨5, rfl, by omega, ⟨by omega, e5, ?_⟩, ?_⟩
    · intro j hj6 hj5; omega
    intro j hj1 hjk ⟨hk5, hkeq, hall⟩
    by_cases hj : j = 4
    · subst hj
      have hx : c.n_L4 = 1 := hkeq
      omega
    · have hx : c.n_L4 = 1 := hall 4 (by omega) (by omega)
      omega
  rw [if_neg c4]
  have e4 : c.n_L4 = 1 := by omega
  by_cases c3 : 1 < c.n_L3
  · rw [if_pos c3]
    refine ⟨4, rfl, by omega, ⟨by omega, e4, ?_⟩, ?_⟩
    · intro j hj6 hj4
      interval_cases j <;> simp only [RoutingCost.nth] <;> omega
    intro j hj1 hjk ⟨hk5, hkeq, hall⟩
    by_cases hj : j = 3
    · subst hj
      have hx : c.n_L3 = 1 := hkeq
      omega
    · have hx : c.n_L3 = 1 := hall 3 (by omega) (by omega)
      omega
  rw [if_neg c3]
  have e3 : c.n_L3 = 1 := by omega
  by_cases c2 : 1 < c.n_L2
  · rw [if_pos c2]
    refine ⟨3, rfl, by omega, ⟨by omega, e3, ?_⟩, ?_⟩
    · intro j hj6 hj3
      interval_cases j <;> simp only [RoutingCost.nth] <;> omega
    intro j hj1 hjk ⟨hk5, hkeq, hall⟩
    by_cases hj : j = 2
    · subst hj
      have hx : c.n_L2 = 1 := hkeq
      omega
    · have hx : c.n_L2 = 1 := hall 2 (by omega) (by omega)
      omega
  rw [if_neg c2]
  have e2 : c.n_L2 = 1 := by omega
  by_cases c1 : 1 < c.n_L1
  · rw [if_pos c1]
    refine ⟨2, rfl, by omega, ⟨by omega, e2, ?_⟩, ?_⟩
    · intro j hj6 hj2
      interval_cases j <;> simp only [RoutingCost.nth] <;> omega
    intro j hj1 hjk ⟨hk5, hkeq, hall⟩
    have hj : j = 1 := by omega
    subst hj
    have hx : c.n_L1 = 1 := hkeq
    omega
  rw [if_neg c1]
  have e1 : c.n_L1 = 1 := by omega
  by_cases c0 : 1 < c.n_L0
  · rw [if_pos c0]
    refine ⟨1, rfl, by omega, ⟨by omega, e1, ?_⟩, ?_⟩
    · intro j hj6 hj1
      interval_cases j <;> simp only [RoutingCost.nth] <;> omega
    intro j hj1 hjk
    omega
  · rw [if_neg c0]
    refine ⟨1, rfl, by omega, ⟨by omega, e1, ?_⟩, ?_⟩
    · intro j hj6 hj1
      interval_cases j <;> simp only [RoutingCost.nth] <;> omega
    intro j hj1 hjk
    omega

/-- Witness for C4 (amended) at the cost of 65 cores. -/
theorem routing_level_spec_witness :
    ∃ k, RoutingCost.getRoutingLevel ⟨128, 32, 8, 2, 1, 1⟩ = some k ∧ 1 ≤ k ∧
      levelOk ⟨128, 32, 8, 2, 1, 1⟩ k ∧
      ∀ j, 1 ≤ j → j < k → ¬levelOk ⟨128, 32, 8, 2, 1, 1⟩ j :=
  (routing_level_spec ⟨128, 32, 8, 2, 1, 1⟩ (by decide)).2 (by decide)

/-! ### C6: `get_routing_consumption` -/

/-- C6: for `n ≥ 1`, `get_routing_consumption(n).n_L0` is the least power of
two that is `≥ n`; each deeper level is `1` if the previous is `< 4` and a
quarter of it otherwise; the whole cost vector is monotone in the core count;
and `get_routing_consumption(65) = RoutingCost(128,32,8,2,1)` with
`n_L5 = 1`. -/
theorem routing_consumption_spec (n : ℕ) (hn : 1 ≤ n) :
    ((n ≤ (getRoutingConsumption n).n_L0 ∧
      (∃ k, (getRoutingConsumption n).n_L0 = 2 ^ k) ∧
      ∀ k, n ≤ 2 ^ k → (getRoutingConsumption n).n_L0 ≤ 2 ^ k) ∧
     ((getRoutingConsumption n).n_L1 =
        (if (getRoutingConsumption n).n_L0 < 4 then 1
         else (getRoutingConsumption n).n_L0 / 4) ∧
      (getRoutingConsumption n).n_L2 =
        (if (getRoutingConsumption n).n_L1 < 4 then 1
         else (getRoutingConsumption n).n_L1 / 4) ∧
      (getRoutingConsumption n).n_L3 =
        (if (getRoutingConsumption n).n_L2 < 4 then 1
         else (getRoutingConsumption n).n_L2 / 4) ∧
      (getRoutingConsumption n).n_L4 =
        (if (getRoutingConsumption n).n_L3 < 4 then 1
         else (getRoutingConsumption n).n_L3 / 4) ∧
      (getRoutingConsumption n).n_L5 =
        (if (getRoutingConsumption n).n_L4 < 4 then 1
         else (getRoutingConsumption n).n_L4 / 4)) ∧
     (∀ m, n ≤ m → ∀ j < 6,
        (getRoutingConsumption n).nth j ≤ (getRoutingConsumption m).nth j)) ∧
    getRoutingConsumption 65 = ⟨128, 32, 8, 2, 1, 1⟩ := by
  refine ⟨⟨⟨?_, ⟨_, getRoutingConsumption_n_L0 n⟩, ?_⟩,
    ⟨rfl, rfl, rfl, rfl, rfl⟩, ?_⟩, ?_⟩
  · rw [getRoutingConsumption_n_L0]
    have := Nat.lt_size_self (n - 1)
    omega
  · intro k hk
    rw [getRoutingConsumption_n_L0]
    exact Nat.pow_le_pow_right (by norm_num) (Nat.size_le.mpr (by omega))
  · intro m hm
    have m0 : (getRoutingConsumption n).n_L0 ≤ (getRoutingConsumption m).n_L0 := by
      rw [getRoutingConsumption_n_L0, getRoutingConsumption_n_L0]
      exact Nat.pow_le_pow_right (by norm_num) (Nat.size_le_size (by omega))
    have m1 : (getRoutingConsumption n).n_L1 ≤ (getRoutingConsumption m).n_L1 :=
      routingStep_mono m0
    have m2 : (getRoutingConsumption n).n_L2 ≤ (getRoutingConsumption m).n_L2 :=
      routingStep_mono m1
    have m3 : (getRoutingConsumption n).n_L3 ≤ (getRoutingConsumption m).n_L3 :=
      routingStep_mono m2
    have m4 : (getRoutingConsumption n).n_L4 ≤ (getRoutingConsumption m).n_L4 :=
      routingStep_mono m3
    have m5 : (getRoutingConsumption n).n_L5 ≤ (getRoutingConsumption m).n_L5 :=
      routingStep_mono m4
    intro j hj
    interval_cases j <;> assumption
  · have h64 : Nat.size (65 - 1) = 7 := by
      rw [show (65 - 1 : ℕ) = 2 ^ 6 by norm_num, Nat.size_pow]
    simp only [getRoutingConsumption, bit_length, h64]
    decide

/-- Witness for C6 at `n = 65`. -/
theorem routing_consumption_spec_witness :
    65 ≤ (getRoutingConsumption 65).n_L0 ∧
      getRoutingConsumption 65 = ⟨128, 32, 8, 2, 1, 1⟩ :=
  ⟨(routing_consumption_spec 65 (by norm_num)).1.1.1,
    (routing_consumption_spec 65 (by norm_num)).2⟩

/-! ### Frame format constants (`framelib/frame_defs.py`) -/

/-- `_mask(mask_bit) = (1 << mask_bit) - 1`. -/
def mask (mask_bit : ℕ) : ℕ := (1 <<< mask_bit) - 1

def FRAME_LENGTH : ℕ := 64

def GENERAL_MASK : ℕ := mask FRAME_LENGTH

def GENERAL_HEADER_OFFSET : ℕ := 60

def GENERAL_HEADER_MASK : ℕ := mask 4

def GENERAL_CHIP_ADDR_OFFSET : ℕ := 50

def GENERAL_CHIP_ADDR_MASK : ℕ := mask 10

def GENERAL_CORE_ADDR_OFFSET : ℕ := 40

def GENERAL_CORE_ADDR_MASK : ℕ := mask 10

def GENERAL_CORE_EX_ADDR_OFFSET : ℕ := 30

def GENERAL_CORE_EX_ADDR_MASK : ℕ := mask 10

def GENERAL_PAYLOAD_LENGTH : ℕ := 30

def GENERAL_PAYLOAD_MASK : ℕ := mask GENERAL_PAYLOAD_LENGTH

def GENERAL_PACKAGE_SRAM_ADDR_OFFSET : ℕ := 20

def GENERAL_PACKAGE_SRAM_ADDR_MASK : ℕ := mask 10

def GENERAL_PACKAGE_TYPE_OFFSET : ℕ := 19

def GENERAL_PACKAGE_TYPE_MASK : ℕ := mask 1

def GENERAL_PACKAGE_NUM_OFFSET : ℕ := 0

def GENERAL_PACKAGE_NUM_MASK : ℕ := mask 19

/-! ### Bitwise helper lemmas -/

theorem mask_eq (n : ℕ) : mask n = 2 ^ n - 1 := by
  simp [mask, Nat.one_shiftLeft]

/-- Disjoint OR is addition: when `b` fits below bit `k`, OR-ing it into a
multiple of `2^k` is plain addition. -/
theorem lor_two_pow_eq_add {k b : ℕ} (a : ℕ) (hb : b < 2 ^ k) :
    (2 ^ k * a) ||| b = 2 ^ k * a + b := by
  induction k generalizing a b with
  | zero =>
    interval_cases b
    simp
  | succ k ih =>
    have hx2 : 2 ^ (k + 1) * a = 2 * (2 ^ k * a) := by ring
    have hdiv : ((2 ^ (k + 1) * a) ||| b) / 2 = (2 ^ k * a) ||| (b / 2) := by
      rw [Nat.or_div_two, hx2, Nat.mul_div_cancel_left _ (by norm_num)]
    have h1 : (2 ^ (k + 1) * a) % 2 = 0 := by omega
    have hmod : ((2 ^ (k + 1) * a) ||| b) % 2 = b % 2 := by
      have hiff := Nat.or_mod_two_eq_one (a := 2 ^ (k + 1) * a) (b := b)
      rcases Nat.mod_two_eq_zero_or_one b with h | h
      · rcases Nat.mod_two_eq_zero_or_one ((2 ^ (k + 1) * a) ||| b) with h2 | h2
        · omega
        · have := hiff.mp h2
          omega
      · have := hiff.mpr (Or.inr h)
        omega
    have ih2 := ih (b := b / 2) a (by omega)
    have hsplit : ((2 ^ (k + 1) * a) ||| b) =
        2 * (((2 ^ (k + 1) * a) ||| b) / 2) + ((2 ^ (k + 1) * a) ||| b) % 2 := by
      omega
    rw [hsplit, hdiv, hmod, ih2]
    omega

/-- `(a <<< k) ||| b = a * 2^k + b` when `b < 2^k`. -/
theorem shiftLeft_lor_eq_add {k b : ℕ} (a : ℕ) (hb : b < 2 ^ k) :
    (a <<< k) ||| b = a * 2 ^ k + b := by
  rw [Nat.shiftLeft_eq, mul_comm a (2 ^ k), lor_two_pow_eq_add a hb,
    mul_comm (2 ^ k) a]

/-! ### C2: random-seed frame split (`_RandomSeedFrame`) -/

/-- `_RandomSeedFrame._random_seed_split`: mask the seed to 64 bits and split
it into three payload words. -/
def randomSeedSplit (random_seed : ℕ) : List ℕ :=
  let s := random_seed &&& GENERAL_MASK
  [(s >>> 34) &&& GENERAL_PAYLOAD_MASK,
    (s >>> 4) &&& GENERAL_PAYLOAD_MASK,
    (s &&& mask 4) <<< (GENERAL_PAYLOAD_LENGTH - 4)]

set_option maxHeartbeats 1000000 in
/-- C2: for every seed below `2^64` the three payload words of a random-seed
frame are exactly `(seed>>34) & mask30`, `(seed>>4) & mask30`, and
`(seed & 15) << 26`, and the inverse concatenation
`(w0<<34) | (w1<<4) | (w2>>26)` recovers the seed. -/
theorem random_seed_roundtrip (seed : ℕ) (h : seed < 2 ^ 64) :
    randomSeedSplit seed =
      [(seed >>> 34) &&& mask 30, (seed >>> 4) &&& mask 30,
        (seed &&& mask 4) <<< 26] ∧
    ∀ w0 w1 w2, randomSeedSplit seed = [w0, w1, w2] →
      (w0 <<< 34) ||| (w1 <<< 4) ||| (w2 >>> 26) = seed := by
  have hgm : GENERAL_MASK = 2 ^ 64 - 1 := by
    rw [GENERAL_MASK, mask_eq]
    norm_num [FRAME_LENGTH]
  have hs : seed &&& GENERAL_MASK = seed := by
    rw [hgm, Nat.and_pow_two_sub_one_eq_mod, Nat.mod_eq_of_lt h]
  have hsplit : randomSeedSplit seed =
      [(seed >>> 34) &&& mask 30, (seed >>> 4) &&& mask 30,
        (seed &&& mask 4) <<< 26] := by
    simp only [randomSeedSplit, hs]
    rfl
  refine ⟨hsplit, ?_⟩
  intro w0 w1 w2 hw
  rw [hsplit] at hw
  simp only [List.cons.injEq, and_true] at hw
  obtain ⟨h0, h1, h2⟩ := hw
  subst h0
  subst h1
  subst h2
  rw [mask_eq 30, mask_eq 4, Nat.and_pow_two_sub_one_eq_mod,
    Nat.and_pow_two_sub_one_eq_mod, Nat.and_pow_two_sub_one_eq_mod,
    Nat.shiftRight_eq_div_pow seed 34, Nat.shiftRight_eq_div_pow seed 4]
  have hw2 : ((seed % 2 ^ 4) <<< 26) >>> 26 = seed % 2 ^ 4 := by
    rw [Nat.shiftLeft_eq, Nat.shiftRight_eq_div_pow,
      Nat.mul_div_cancel _ (by positivity)]
  rw [hw2]
  have hb1 : (seed / 2 ^ 4 % 2 ^ 30) <<< 4 < 2 ^ 34 := by
    rw [Nat.shiftLeft_eq]
    have h30 : seed / 2 ^ 4 % 2 ^ 30 < 2 ^ 30 := Nat.mod_lt _ (by positivity)
    omega
  rw [shiftLeft_lor_eq_add _ hb1]
  have hshape : seed / 2 ^ 34 % 2 ^ 30 * 2 ^ 34 +
      (seed / 2 ^ 4 % 2 ^ 30) <<< 4 =
      (seed / 2 ^ 34 % 2 ^ 30 * 2 ^ 30 + seed / 2 ^ 4 % 2 ^ 30) <<< 4 := by
    rw [Nat.shiftLeft_eq, Nat.shiftLeft_eq]
    ring
  rw [hshape]
  have hb2 : seed % 2 ^ 4 < 2 ^ 4 := Nat.mod_lt _ (by positivity)
  rw [shiftLeft_lor_eq_add _ hb2]
  omega

set_option maxHeartbeats 2000000 in
/-- Witness for C2 at seed `123456789`. -/
theorem random_seed_roundtrip_witness :
    randomSeedSplit 123456789 = [0, 7716049, 335544320] ∧
      ((0 : ℕ) <<< 34) ||| ((7716049 : ℕ) <<< 4) |||
        ((335544320 : ℕ) >>> 26) = 123456789 :=
  ⟨by decide,
    (random_seed_roundtrip 123456789 (by norm_num)).2 0 7716049 335544320
      (by decide)⟩

/-! ### Frame skeleton (`framelib/base.py`) -/

/-- `FrameHeader` values (`frame_defs.py`): `(frame_type << 2) | subtype`. -/
def FRAME_TYPE_CONFIG : ℕ := 0

def FRAME_TYPE_TEST : ℕ := 1

def FRAME_TYPE_WORK : ℕ := 2

def CONFIG_TYPE3 : ℕ := (FRAME_TYPE_CONFIG <<< 2) ||| 2

def WORK_TYPE1 : ℕ := (FRAME_TYPE_WORK <<< 2) ||| 0

def WORK_TYPE2 : ℕ := (FRAME_TYPE_WORK <<< 2) ||| 1

/-- `Coord.address`: the 10-bit address, priority axis in the high bits. -/
def Coord.address (c : Coord) : ℕ :=
  if COORD_Y_PRIORITY then (c.x <<< N_BIT_CORE_Y) ||| c.y
  else (c.y <<< N_BIT_CORE_X) ||| c.x

/-- `Frame._frame_common`: header and the three masked 10-bit addresses
shifted into the top 34 bits, combined with `+`. -/
def frameCommon (header : ℕ) (chip_coord core_coord : Coord)
    (rid : ReplicationId) : ℕ :=
  ((header &&& GENERAL_HEADER_MASK) <<< GENERAL_HEADER_OFFSET)
    + ((chip_coord.address &&& GENERAL_CHIP_ADDR_MASK) <<<
        GENERAL_CHIP_ADDR_OFFSET)
    + ((core_coord.address &&& GENERAL_CORE_ADDR_MASK) <<<
        GENERAL_CORE_ADDR_OFFSET)
    + ((rid.address &&& GENERAL_CORE_EX_ADDR_MASK) <<<
        GENERAL_CORE_EX_ADDR_OFFSET)

/-- One emitted 64-bit frame word: `_frame_common + (payload & mask30)`,
stored as `np.uint64`. -/
def frameWord (header : ℕ) (chip_coord core_coord : Coord)
    (rid : ReplicationId) (payload : ℕ) : ℕ :=
  (frameCommon header chip_coord core_coord rid
    + (payload &&& GENERAL_PAYLOAD_MASK)) % 2 ^ 64

/-- `Frame` with a scalar payload (`framelib/base.py`). -/
structure Frame where
  header : ℕ
  chip_coord : Coord
  core_coord : Coord
  rid : ReplicationId
  payload : ℕ
deriving DecidableEq, Repr

/-- `Frame.value` for a scalar payload: a single 64-bit word. -/
def Frame.value (f : Frame) : List ℕ :=
  [frameWord f.header f.chip_coord f.core_coord f.rid f.payload]

/-- `FramePackage` (`framelib/base.py`): a frame followed by `n_package`
opaque 64-bit package words. -/
structure FramePackage where
  header : ℕ
  chip_coord : Coord
  core_coord : Coord
  rid : ReplicationId
  payload : ℕ
  packages : List ℕ
deriving DecidableEq, Repr

/-- `FramePackage.value`: word 0 is the common header word, words `1..` are
the package array. -/
def FramePackage.value (f : FramePackage) : List ℕ :=
  frameWord f.header f.chip_coord f.core_coord f.rid f.payload :: f.packages

/-! ### C9: sync work frame (`OfflineWorkFrame2`) -/

/-- `OfflineWorkFrame2.__init__`: flag (the `TruncationWarning`) when
`n_sync` exceeds the 30-bit payload mask, store `n_sync & mask30`, and fix
the destination core and replication id at `(0,0)`.  No path raises. -/
def mkOfflineWorkFrame2 (chip_coord : Coord) (n_sync : ℕ) : Bool × Frame :=
  (decide (n_sync > GENERAL_PAYLOAD_MASK),
    ⟨WORK_TYPE2, chip_coord, ⟨0, 0⟩, ⟨0, 0⟩, n_sync &&& GENERAL_PAYLOAD_MASK⟩)

/-- C9: constructing a sync work frame never fails on account of `n_sync`:
the stored payload is always `n_sync mod 2^30`, the truncation warning fires
exactly when `n_sync` exceeds 30 bits, a fitting `n_sync` is stored unchanged
with no warning, and the destination core and replication id are `(0,0)`. -/
theorem sync_frame_truncation (chip : Coord) (n_sync : ℕ) :
    (mkOfflineWorkFrame2 chip n_sync).2.payload = n_sync % 2 ^ 30 ∧
    ((mkOfflineWorkFrame2 chip n_sync).1 = true ↔ 2 ^ 30 - 1 < n_sync) ∧
    (n_sync ≤ 2 ^ 30 - 1 →
      (mkOfflineWorkFrame2 chip n_sync).2.payload = n_sync ∧
        (mkOfflineWorkFrame2 chip n_sync).1 = false) ∧
    (mkOfflineWorkFrame2 chip n_sync).2.core_coord = ⟨0, 0⟩ ∧
    (mkOfflineWorkFrame2 chip n_sync).2.rid = ⟨0, 0⟩ := by
  have hm : GENERAL_PAYLOAD_MASK = 2 ^ 30 - 1 := by
    rw [GENERAL_PAYLOAD_MASK, mask_eq]
    norm_num [GENERAL_PAYLOAD_LENGTH]
  refine ⟨?_, ?_, ?_, rfl, rfl⟩
  · show n_sync &&& GENERAL_PAYLOAD_MASK = n_sync % 2 ^ 30
    rw [hm, Nat.and_pow_two_sub_one_eq_mod]
  · show decide (n_sync > GENERAL_PAYLOAD_MASK) = true ↔ _
    rw [hm]
    simp
  · intro hle
    refine ⟨?_, ?_⟩
    · show n_sync &&& GENERAL_PAYLOAD_MASK = n_sync
      rw [hm, Nat.and_pow_two_sub_one_eq_mod, Nat.mod_eq_of_lt (by omega)]
    · show decide (n_sync > GENERAL_PAYLOAD_MASK) = false
      rw [hm]
      simp
      omega

/-- Witness for C9 at `n_sync = 2^30 + 5` (truncated with warning) and
`n_sync = 7` (stored unchanged, no warning). -/
theorem sync_frame_truncation_witness :
    (mkOfflineWorkFrame2 ⟨1, 2⟩ (2 ^ 30 + 5)).2.payload = 5 ∧
    (mkOfflineWorkFrame2 ⟨1, 2⟩ (2 ^ 30 + 5)).1 = true ∧
    (mkOfflineWorkFrame2 ⟨1, 2⟩ 7).2.payload = 7 ∧
    (mkOfflineWorkFrame2 ⟨1, 2⟩ 7).1 = false := by
  refine ⟨?_, ?_, ?_, ?_⟩
  · rw [(sync_frame_truncation ⟨1, 2⟩ (2 ^ 30 + 5)).1]
    decide
  · exact (sync_frame_truncation ⟨1, 2⟩ (2 ^ 30 + 5)).2.1.mpr (by norm_num)
  · exact ((sync_frame_truncation ⟨1, 2⟩ 7).2.2.1 (by norm_num)).1
  · exact ((sync_frame_truncation ⟨1, 2⟩ 7).2.2.1 (by norm_num)).2

/-! ### C10: field integrity of the emitted word -/

theorem Coord.address_eq (c : Coord) (h : c.valid) :
    c.address = 32 * c.x + c.y := by
  obtain ⟨hx0, hx1, hy0, hy1⟩ := h
  rw [CORE_Y_MAX_eq] at hy1
  rw [Coord.address]
  simp only [COORD_Y_PRIORITY, if_true]
  rw [show N_BIT_CORE_Y = 5 from rfl,
    shiftLeft_lor_eq_add c.x (show c.y < 2 ^ 5 by omega)]
  ring

theorem Coord.address_lt (c : Coord) (h : c.valid) : c.address < 2 ^ 10 := by
  obtain ⟨hx0, hx1, hy0, hy1⟩ := h
  rw [CORE_X_MAX_eq] at hx1
  rw [CORE_Y_MAX_eq] at hy1
  rw [Coord.address_eq c ⟨hx0, by rw [CORE_X_MAX_eq]; omega, hy0,
    by rw [CORE_Y_MAX_eq]; omega⟩]
  omega

/-- C10: although the header, addresses and payload are combined into the
64-bit word by integer addition, no carry ever crosses a field boundary: for
any valid coordinates, 4-bit header and arbitrary payload, shift-and-mask
extraction from the first word of `Frame.value` (and of
`FramePackage.value`) recovers every constructor field exactly. -/
theorem frame_word_field_integrity (header : ℕ) (chip core : Coord)
    (rid : ReplicationId) (payload : ℕ) (pkgs : List ℕ)
    (hh : header < 2 ^ 4) (hchip : chip.valid) (hcore : core.valid)
    (hrid : rid.valid) :
    ∀ w, w = frameWord header chip core rid payload →
      w >>> 60 = header ∧
      (w >>> 50) &&& mask 10 = chip.address ∧
      (w >>> 40) &&& mask 10 = core.address ∧
      (w >>> 30) &&& mask 10 = rid.address ∧
      w &&& mask 30 = payload &&& mask 30 ∧
      (Frame.mk header chip core rid payload).value = [w] ∧
      (FramePackage.mk header chip core rid payload pkgs).value = w :: pkgs := by
  intro w hw
  have hca := Coord.address_lt chip hchip
  have hco := Coord.address_lt core hcore
  have hcr := Coord.address_lt rid hrid
  have hm4 : GENERAL_HEADER_MASK = 2 ^ 4 - 1 := by
    rw [GENERAL_HEADER_MASK, mask_eq]
  have hm10c : GENERAL_CHIP_ADDR_MASK = 2 ^ 10 - 1 := by
    rw [GENERAL_CHIP_ADDR_MASK, mask_eq]
  have hm10o : GENERAL_CORE_ADDR_MASK = 2 ^ 10 - 1 := by
    rw [GENERAL_CORE_ADDR_MASK, mask_eq]
  have hm10r : GENERAL_CORE_EX_ADDR_MASK = 2 ^ 10 - 1 := by
    rw [GENERAL_CORE_EX_ADDR_MASK, mask_eq]
  have hm30 : GENERAL_PAYLOAD_MASK = 2 ^ 30 - 1 := by
    rw [GENERAL_PAYLOAD_MASK, mask_eq]
    norm_num [GENERAL_PAYLOAD_LENGTH]
  have hword : w = (header * 2 ^ 60 + chip.address * 2 ^ 50 +
      core.address * 2 ^ 40 + rid.address * 2 ^ 30 + payload % 2 ^ 30) % 2 ^ 64 := by
    rw [hw, frameWord, frameCommon, hm4, hm10c, hm10o, hm10r, hm30]
    rw [Nat.and_pow_two_sub_one_eq_mod, Nat.and_pow_two_sub_one_eq_mod,
      Nat.and_pow_two_sub_one_eq_mod, Nat.and_pow_two_sub_one_eq_mod,
      Nat.and_pow_two_sub_one_eq_mod]
    rw [Nat.mod_eq_of_lt hh, Nat.mod_eq_of_lt hca, Nat.mod_eq_of_lt hco,
      Nat.mod_eq_of_lt hcr]
    rw [Nat.shiftLeft_eq, Nat.shiftLeft_eq, Nat.shiftLeft_eq, Nat.shiftLeft_eq]
    rfl
  have hplt : payload % 2 ^ 30 < 2 ^ 30 := Nat.mod_lt _ (by positivity)
  have hwlt : header * 2 ^ 60 + chip.address * 2 ^ 50 + core.address * 2 ^ 40 +
      rid.address * 2 ^ 30 + payload % 2 ^ 30 < 2 ^ 64 := by
    omega
  rw [Nat.mod_eq_of_lt hwlt] at hword
  refine ⟨?_, ?_, ?_, ?_, ?_, by rw [hw]; rfl, by rw [hw]; rfl⟩
  · rw [hword, Nat.shiftRight_eq_div_pow]
    omega
  · rw [hword, Nat.shiftRight_eq_div_pow, mask_eq,
      Nat.and_pow_two_sub_one_eq_mod]
    omega
  · rw [hword, Nat.shiftRight_eq_div_pow, mask_eq,
      Nat.and_pow_two_sub_one_eq_mod]
    omega
  · rw [hword, Nat.shiftRight_eq_div_pow, mask_eq,
      Nat.and_pow_two_sub_one_eq_mod]
    omega
  · rw [hword, mask_eq, Nat.and_pow_two_sub_one_eq_mod,
      Nat.and_pow_two_sub_one_eq_mod]
    omega

/-- Witness for C10 at header `WORK_TYPE2 = 9`, chip `(3,4)`, core `(5,6)`,
rid `(7,8)`, payload `2^30 + 12345` (so the stored payload is the masked
`12345`). -/
theorem frame_word_field_integrity_witness :
    (frameWord 9 ⟨3, 4⟩ ⟨5, 6⟩ ⟨7, 8⟩ (2 ^ 30 + 12345)) >>> 60 = 9 ∧
    ((frameWord 9 ⟨3, 4⟩ ⟨5, 6⟩ ⟨7, 8⟩ (2 ^ 30 + 12345)) >>> 50) &&& mask 10 =
      Coord.address ⟨3, 4⟩ ∧
    (frameWord 9 ⟨3, 4⟩ ⟨5, 6⟩ ⟨7, 8⟩ (2 ^ 30 + 12345)) &&& mask 30 =
      (2 ^ 30 + 12345) &&& mask 30 := by
  have h := frame_word_field_integrity 9 ⟨3, 4⟩ ⟨5, 6⟩ ⟨7, 8⟩ (2 ^ 30 + 12345)
    [] (by norm_num) (by decide) (by decide) (by decide)
    (frameWord 9 ⟨3, 4⟩ ⟨5, 6⟩ ⟨7, 8⟩ (2 ^ 30 + 12345)) rfl
  exact ⟨h.1, h.2.1, h.2.2.2.2.1⟩

/-! ### C7: neuron-RAM package frame (`_NeuronRAMFrame`) -/

def VJT_PRE_OFFSET : ℕ := 0

def BIT_TRUNCATE_OFFSET : ℕ := 30

def WEIGHT_DET_STOCH_OFFSET : ℕ := 35

def LEAK_V_LOW28_OFFSET : ℕ := 36

def LEAK_V_HIGH2_OFFSET : ℕ := 0

def LEAK_DET_STOCH_OFFSET : ℕ := 2

def LEAK_REVERSAL_FLAG_OFFSET : ℕ := 3

def THRESHOLD_POS_OFFSET : ℕ := 4

def THRESHOLD_NEG_OFFSET : ℕ := 33

def THRESHOLD_NEG_MODE_OFFSET : ℕ := 62

def THRESHOLD_MASK_CTRL_LOW1_OFFSET : ℕ := 63

def THRESHOLD_MASK_CTRL_HIGH4_OFFSET : ℕ := 0

def LEAK_POST_OFFSET : ℕ := 4

def RESET_V_OFFSET : ℕ := 5

def RESET_MODE_OFFSET : ℕ := 35

def ADDR_CHIP_Y_OFFSET : ℕ := 37

def ADDR_CHIP_X_OFFSET : ℕ := 42

def ADDR_CORE_Y_EX_OFFSET : ℕ := 47

def ADDR_CORE_X_EX_OFFSET : ℕ := 52

def ADDR_CORE_Y_OFFSET : ℕ := 57

def ADDR_CORE_X_LOW2_OFFSET : ℕ := 62

def ADDR_CORE_X_HIGH3_OFFSET : ℕ := 0

def ADDR_AXON_OFFSET : ℕ := 3

def TICK_RELATIVE_OFFSET : ℕ := 14

/-- Python `v & _mask(n)` on a (possibly negative) int: the low `n` bits as a
natural number (`Int.emod` matches Python's nonnegative `%`). -/
def maskI (v : ℤ) (n : ℕ) : ℕ := (v % ((2 : ℤ) ^ n)).toNat

/-- `bin_split(x, pos, high_mask_bit)` of `framelib/utils.py`: returns
`(high, low)` where `low = x & mask(pos)` and
`high = (x >> pos) & mask(high_mask_bit)` (Python `>>` floors). -/
def binSplit (x : ℤ) (pos high_mask_bit : ℕ) : ℕ × ℕ :=
  (maskI (Int.fdiv x ((2 : ℤ) ^ pos)) high_mask_bit, maskI x pos)

/-- The neuron attributes consumed by `_NeuronRAMFrame._get_packages`
(validated upstream by `NeuronAttrsChecker`); `leak_v` is either a scalar or
a per-neuron array. -/
structure NeuronAttrs where
  voltage : ℤ
  bit_truncate : ℤ
  weight_det_stoch : ℤ
  leak_v : ℤ ⊕ List ℤ
  leak_det_stoch : ℤ
  leak_reversal_flag : ℤ
  threshold_pos : ℤ
  threshold_neg : ℤ
  threshold_neg_mode : ℤ
  threshold_mask_ctrl : ℤ
  leak_post : ℤ
  reset_v : ℤ
  reset_mode : ℤ

/-- The destination info consumed by `_NeuronRAMFrame._get_packages`
(validated upstream by `NeuronDestInfoChecker`). -/
structure NeuronDestInfo where
  addr_chip_x : ℤ
  addr_chip_y : ℤ
  addr_core_x : ℤ
  addr_core_y : ℤ
  addr_core_x_ex : ℤ
  addr_core_y_ex : ℤ
  tick_relative : List ℤ
  addr_axon : List ℤ

/-- RAM package word 1, `RAM[63:0]`. -/
def genRamFrame1 (a : NeuronAttrs) (leak_v_low28 : ℕ) : ℕ :=
  ((maskI a.voltage 30) <<< VJT_PRE_OFFSET)
    ||| ((maskI a.bit_truncate 5) <<< BIT_TRUNCATE_OFFSET)
    ||| ((maskI a.weight_det_stoch 1) <<< WEIGHT_DET_STOCH_OFFSET)
    ||| ((leak_v_low28 &&& mask 28) <<< LEAK_V_LOW28_OFFSET)

/-- RAM package word 2, `RAM[127:64]`. -/
def genRamFrame2 (a : NeuronAttrs)
    (leak_v_high2 threshold_mask_ctrl_low1 : ℕ) : ℕ :=
  ((leak_v_high2 &&& mask 2) <<< LEAK_V_HIGH2_OFFSET)
    ||| ((maskI a.leak_det_stoch 1) <<< LEAK_DET_STOCH_OFFSET)
    ||| ((maskI a.leak_reversal_flag 1) <<< LEAK_REVERSAL_FLAG_OFFSET)
    ||| ((maskI a.threshold_pos 29) <<< THRESHOLD_POS_OFFSET)
    ||| ((maskI a.threshold_neg 29) <<< THRESHOLD_NEG_OFFSET)
    ||| ((maskI a.threshold_neg_mode 1) <<< THRESHOLD_NEG_MODE_OFFSET)
    ||| ((threshold_mask_ctrl_low1 &&& mask 1) <<< THRESHOLD_MASK_CTRL_LOW1_OFFSET)

/-- RAM package word 3, `RAM[191:128]`. -/
def genRamFrame3 (a : NeuronAttrs) (d : NeuronDestInfo)
    (threshold_mask_ctrl_high4 addr_core_x_low2 : ℕ) : ℕ :=
  ((threshold_mask_ctrl_high4 &&& mask 4) <<< THRESHOLD_MASK_CTRL_HIGH4_OFFSET)
    ||| ((maskI a.leak_post 1) <<< LEAK_POST_OFFSET)
    ||| ((maskI a.reset_v 30) <<< RESET_V_OFFSET)
    ||| ((maskI a.reset_mode 2) <<< RESET_MODE_OFFSET)
    ||| ((maskI d.addr_chip_y 5) <<< ADDR_CHIP_Y_OFFSET)
    ||| ((maskI d.addr_chip_x 5) <<< ADDR_CHIP_X_OFFSET)
    ||| ((maskI d.addr_core_y_ex 5) <<< ADDR_CORE_Y_EX_OFFSET)
    ||| ((maskI d.addr_core_x_ex 5) <<< ADDR_CORE_X_EX_OFFSET)
    ||| ((maskI d.addr_core_y 5) <<< ADDR_CORE_Y_OFFSET)
    ||| ((addr_core_x_low2 &&& mask 2) <<< ADDR_CORE_X_LOW2_OFFSET)

/-- RAM package word 4, `RAM[213:192]`. -/
def genRamFrame4 (d : NeuronDestInfo) (addr_core_x_high3 : ℕ) (idx : ℕ) : ℕ :=
  ((addr_core_x_high3 &&& mask 3) <<< ADDR_CORE_X_HIGH3_OFFSET)
    ||| ((maskI (d.addr_axon.getD idx 0) 11) <<< ADDR_AXON_OFFSET)
    ||| ((maskI (d.tick_relative.getD idx 0) 8) <<< TICK_RELATIVE_OFFSET)

/-- `np.tile(_packages, repeat).ravel()`: each per-neuron row of 4 words is
repeated `repeat` times along the row, then the matrix is flattened
row-major. -/
def tileRows (rows : List (List ℕ)) (rpt : ℕ) : List ℕ :=
  (rows.map fun row => (List.replicate rpt row).flatten).flatten

/-- `_NeuronRAMFrame._get_packages`: length checks, the per-neuron 4-word
package block (common words shared when `leak_v` is a scalar), tiled `repeat`
times.  `none` models the raised `ValueError`s. -/
def getPackages (attrs : NeuronAttrs) (dest_info : NeuronDestInfo)
    (n_neuron rpt : ℕ) : Option (List ℕ) :=
  if dest_info.tick_relative.length ≠ dest_info.addr_axon.length then none
  else if n_neuron > dest_info.tick_relative.length then none
  else
    let tmc := binSplit attrs.threshold_mask_ctrl 1 4
    let acx := binSplit dest_info.addr_core_x 2 3
    let f3 := genRamFrame3 attrs dest_info tmc.1 acx.2
    match attrs.leak_v with
    | Sum.inl lv =>
        let lsplit := binSplit lv 28 2
        let f1 := genRamFrame1 attrs lsplit.2
        let f2 := genRamFrame2 attrs lsplit.1 tmc.2
        some (tileRows ((List.range n_neuron).map fun i =>
          [f1, f2, f3, genRamFrame4 dest_info acx.1 i]) rpt)
    | Sum.inr lvs =>
        if lvs.length ≠ n_neuron then none
        else
          some (tileRows ((List.range n_neuron).map fun i =>
            let lsplit := binSplit (lvs.getD i 0) 28 2
            [genRamFrame1 attrs lsplit.2,
              genRamFrame2 attrs lsplit.1 tmc.2, f3,
              genRamFrame4 dest_info acx.1 i]) rpt)

/-- `_package_arg_check`: validate the SRAM base address and package count
against their field widths and pack the package-frame payload
`sram(10) @20 | type(1) @19 | count(19) @0`. -/
def packageArgCheck (sram_base_addr n_package package_type : ℕ) : Option ℕ :=
  if sram_base_addr > GENERAL_PACKAGE_SRAM_ADDR_MASK then none
  else if n_package > GENERAL_PACKAGE_NUM_MASK then none
  else
    some (((sram_base_addr &&& GENERAL_PACKAGE_SRAM_ADDR_MASK) <<<
          GENERAL_PACKAGE_SRAM_ADDR_OFFSET)
      ||| ((package_type &&& GENERAL_PACKAGE_TYPE_MASK) <<<
          GENERAL_PACKAGE_TYPE_OFFSET)
      ||| ((n_package &&& GENERAL_PACKAGE_NUM_MASK) <<<
          GENERAL_PACKAGE_NUM_OFFSET))

def N_FRAME_PER_NEURON_RAM : ℕ := 4

/-- `_L_PACKAGE_TYPE_CONF_TESTOUT = 0b0`. -/
def L_PACKAGE_TYPE_CONF_TESTOUT : ℕ := 0

/-- `_NeuronRAMFrame.__init__`: `n_package = 4 * n_neuron * repeat`, payload
from `_package_arg_check`, packages from `_get_packages`. -/
def mkNeuronRAMFrame (header : ℕ) (chip_coord core_coord : Coord)
    (rid : ReplicationId) (sram_base_addr n_neuron : ℕ)
    (neuron_attrs : NeuronAttrs) (neuron_dest_info : NeuronDestInfo)
    (rpt : ℕ) : Option FramePackage :=
  let n_package := N_FRAME_PER_NEURON_RAM * n_neuron * rpt
  (packageArgCheck sram_base_addr n_package L_PACKAGE_TYPE_CONF_TESTOUT).bind
    fun payload =>
      (getPackages neuron_attrs neuron_dest_info n_neuron rpt).map
        fun packages =>
          ⟨header, chip_coord, core_coord, rid, payload, packages⟩

theorem tileRows_length (g : ℕ → List ℕ) (n rpt : ℕ)
    (hg : ∀ i, (g i).length = 4) :
    (tileRows ((List.range n).map g) rpt).length = 4 * n * rpt := by
  simp only [tileRows, List.length_flatten, List.map_map]
  have : ∀ i : ℕ,
      ((List.replicate rpt (g i)).flatten).length = rpt * 4 := by
    intro i
    simp [hg i]
  calc (((List.range n).map fun i =>
        ((List.replicate rpt (g i)).flatten).length).sum)
      = (((List.range n).map fun _ => rpt * 4).sum) := by
        apply congrArg
        apply List.map_congr_left
        intro i _
        exact this i
    _ = n * (rpt * 4) := by simp [List.map_const']
    _ = 4 * n * rpt := by ring

theorem getPackages_length (attrs : NeuronAttrs) (dest : NeuronDestInfo)
    (n_neuron rpt : ℕ) (pkgs : List ℕ)
    (h : getPackages attrs dest n_neuron rpt = some pkgs) :
    pkgs.length = 4 * n_neuron * rpt := by
  rw [getPackages] at h
  split_ifs at h
  rcases hlv : attrs.leak_v with lv | lvs
  · rw [hlv] at h
    simp only at h
    obtain rfl := Option.some.inj h
    exact tileRows_length _ _ _ (fun i => rfl)
  · rw [hlv] at h
    simp only at h
    split_ifs at h
    obtain rfl := Option.some.inj h
    exact tileRows_length _ _ _ (fun i => rfl)

/-- The payload produced by `_package_arg_check` with the config/test-out
package type carries `n_package` in its low 19 bits. -/
theorem packageArgCheck_mod (sram n_package payload : ℕ)
    (h : packageArgCheck sram n_package L_PACKAGE_TYPE_CONF_TESTOUT =
      some payload) :
    payload % 2 ^ 19 = n_package ∧ n_package ≤ 2 ^ 19 - 1 := by
  rw [packageArgCheck] at h
  split_ifs at h with h1 h2
  have hnum : GENERAL_PACKAGE_NUM_MASK = 2 ^ 19 - 1 := by
    rw [GENERAL_PACKAGE_NUM_MASK, mask_eq]
  rw [hnum] at h2
  obtain rfl := Option.some.inj h
  refine ⟨?_, by omega⟩
  rw [show L_PACKAGE_TYPE_CONF_TESTOUT = 0 from rfl, Nat.zero_and,
    Nat.zero_shiftLeft, Nat.or_zero]
  rw [show GENERAL_PACKAGE_NUM_OFFSET = 0 from rfl, Nat.shiftLeft_zero]
  rw [hnum, Nat.and_pow_two_sub_one_eq_mod,
    Nat.mod_eq_of_lt (show n_package < 2 ^ 19 by omega)]
  rw [show GENERAL_PACKAGE_SRAM_ADDR_OFFSET = 20 from rfl,
    shiftLeft_lor_eq_add _ (show n_package < 2 ^ 20 by omega)]
  omega

/-- C7: for every successfully constructed neuron-RAM package frame, the
package-count field in the low 19 bits of the first emitted word equals
`4 * n_neuron * repeat`, which is also the length of the trailing package
array. -/
theorem neuron_ram_package_count (header : ℕ) (chip core : Coord)
    (rid : ReplicationId) (sram n_neuron rpt : ℕ) (attrs : NeuronAttrs)
    (dest : NeuronDestInfo) (fp : FramePackage)
    (h : mkNeuronRAMFrame header chip core rid sram n_neuron attrs dest rpt =
      some fp) :
    fp.value.headD 0 % 2 ^ 19 = 4 * n_neuron * rpt ∧
    fp.packages.length = 4 * n_neuron * rpt := by
  simp only [mkNeuronRAMFrame] at h
  rcases hpc : packageArgCheck sram (N_FRAME_PER_NEURON_RAM * n_neuron * rpt)
      L_PACKAGE_TYPE_CONF_TESTOUT with _ | payload
  · rw [hpc, Option.none_bind'] at h
    exact Option.noConfusion h
  rcases hgp : getPackages attrs dest n_neuron rpt with _ | pkgs
  · rw [hpc, Option.some_bind', hgp] at h
    exact Option.noConfusion h
  rw [hpc, Option.some_bind', hgp] at h
  obtain rfl := Option.some.inj h.symm
  obtain ⟨hmod, hle⟩ := packageArgCheck_mod _ _ _ hpc
  have hn4 : N_FRAME_PER_NEURON_RAM * n_neuron * rpt = 4 * n_neuron * rpt := rfl
  constructor
  · show frameWord header chip core rid payload % 2 ^ 19 = _
    rw [frameWord]
    rw [Nat.mod_mod_of_dvd _ (by norm_num : (2 : ℕ) ^ 19 ∣ 2 ^ 64)]
    have hdvd : 2 ^ 19 ∣ frameCommon header chip core rid := by
      rw [frameCommon]
      rw [show GENERAL_HEADER_OFFSET = 60 from rfl,
        show GENERAL_CHIP_ADDR_OFFSET = 50 from rfl,
        show GENERAL_CORE_ADDR_OFFSET = 40 from rfl,
        show GENERAL_CORE_EX_ADDR_OFFSET = 30 from rfl]
      rw [Nat.shiftLeft_eq, Nat.shiftLeft_eq, Nat.shiftLeft_eq,
        Nat.shiftLeft_eq]
      have d60 : (2 : ℕ) ^ 19 ∣ 2 ^ 60 := pow_dvd_pow 2 (by norm_num)
      have d50 : (2 : ℕ) ^ 19 ∣ 2 ^ 50 := pow_dvd_pow 2 (by norm_num)
      have d40 : (2 : ℕ) ^ 19 ∣ 2 ^ 40 := pow_dvd_pow 2 (by norm_num)
      have d30 : (2 : ℕ) ^ 19 ∣ 2 ^ 30 := pow_dvd_pow 2 (by norm_num)
      exact dvd_add (dvd_add (dvd_add (d60.mul_left _) (d50.mul_left _))
        (d40.mul_left _)) (d30.mul_left _)
    obtain ⟨kk, hkk⟩ := hdvd
    have hpm : payload &&& GENERAL_PAYLOAD_MASK = payload % 2 ^ 30 := by
      rw [show GENERAL_PAYLOAD_MASK = 2 ^ 30 - 1 by
          rw [GENERAL_PAYLOAD_MASK, mask_eq]
          norm_num [GENERAL_PAYLOAD_LENGTH],
        Nat.and_pow_two_sub_one_eq_mod]
    rw [hpm, hkk, ← hn4]
    omega
  · rw [hn4] at *
    exact getPackages_length attrs dest n_neuron rpt pkgs hgp

/-- A minimal neuron attribute record (scalar `leak_v`). -/
def attrs0 : NeuronAttrs := ⟨0, 0, 0, Sum.inl 0, 0, 0, 0, 0, 0, 0, 0, 0, 0⟩

/-- A minimal destination record for one neuron. -/
def dest0 : NeuronDestInfo := ⟨0, 0, 0, 0, 0, 0, [0], [0]⟩

set_option maxHeartbeats 1000000 in
/-- Witness for C7: a one-neuron, `repeat = 1` frame carries package count 4
in its header word and exactly 4 package words. -/
theorem neuron_ram_package_count_witness :
    ∃ fp, mkNeuronRAMFrame CONFIG_TYPE3 ⟨0, 0⟩ ⟨0, 0⟩ ⟨0, 0⟩ 0 1 attrs0
        dest0 1 = some fp ∧
      fp.value.headD 0 % 2 ^ 19 = 4 * 1 * 1 ∧
      fp.packages.length = 4 * 1 * 1 := by
  rcases hmk : mkNeuronRAMFrame CONFIG_TYPE3 ⟨0, 0⟩ ⟨0, 0⟩ ⟨0, 0⟩ 0 1 attrs0
      dest0 1 with _ | fp
  · have hsome : (mkNeuronRAMFrame CONFIG_TYPE3 ⟨0, 0⟩ ⟨0, 0⟩ ⟨0, 0⟩ 0 1
        attrs0 dest0 1).isSome = true := by decide
    rw [hmk] at hsome
    exact Bool.noConfusion hsome
  · exact ⟨fp, rfl,
      (neuron_ram_package_count _ _ _ _ _ _ _ _ _ _ hmk).1,
      (neuron_ram_package_count _ _ _ _ _ _ _ _ _ _ hmk).2⟩

/-! ### C8: sparse spike encoding (`OfflineWorkFrame1._gen_frame_fast`) -/

/-- `OfflineWorkFrame1._gen_frame_fast`: `indexes = np.nonzero(data)`, output
`frame_dest_info[indexes] + data[indexes]`. -/
def genFrameFast (frame_dest_info : List ℕ) (data : List ℕ) : List ℕ :=
  let indexes := (List.range data.length).filter fun i => data.getD i 0 != 0
  indexes.map fun i => frame_dest_info.getD i 0 + data.getD i 0

theorem genFrameFast_cons (e d : ℕ) (es ds : List ℕ) :
    genFrameFast (e :: es) (d :: ds) =
      if d ≠ 0 then (e + d) :: genFrameFast es ds else genFrameFast es ds := by
  have hP : ((fun i => (d :: ds).getD i 0 != 0) ∘ Nat.succ) =
      (fun i => ds.getD i 0 != 0) := by
    funext i
    simp
  have hF : ((fun i => (e :: es).getD i 0 + (d :: ds).getD i 0) ∘ Nat.succ) =
      (fun i => es.getD i 0 + ds.getD i 0) := by
    funext i
    simp
  simp only [genFrameFast, List.length_cons, List.range_succ_eq_map,
    List.filter_cons, List.filter_map, List.map_map, hP, hF]
  by_cases hd : d = 0
  · subst hd
    simp
  · simp [hd]

/-- C8: the fast work-frame generator emits, in index order, exactly one word
`frame_dest_info[i] + data[i]` for every index with `data[i] ≠ 0`, and drops
indices with `data[i] = 0` entirely. -/
theorem gen_frame_fast_sparse (frame_dest_info data : List ℕ)
    (h : frame_dest_info.length = data.length) :
    genFrameFast frame_dest_info data =
      ((frame_dest_info.zip data).filter fun p => p.2 != 0).map
        fun p => p.1 + p.2 := by
  induction data generalizing frame_dest_info with
  | nil =>
    obtain rfl := List.length_eq_zero.mp h
    rfl
  | cons d ds ih =>
    cases frame_dest_info with
    | nil => simp at h
    | cons e es =>
      have h2 : es.length = ds.length := by simpa using h
      rw [genFrameFast_cons, List.zip_cons_cons, List.filter_cons]
      by_cases hd : d = 0
      · subst hd
        simp [ih es h2]
      · simp [hd, ih es h2]

/-- Witness for C8: destinations `[100, 200, 300]` with data `[1, 0, 5]`
yield `[101, 305]` — the zero-valued spike is dropped. -/
theorem gen_frame_fast_sparse_witness :
    genFrameFast [100, 200, 300] [1, 0, 5] = [101, 305] := by
  rw [gen_frame_fast_sparse [100, 200, 300] [1, 0, 5] (by rfl)]
  decide

end PAIlib
